import Mathlib

/-!
Verification of the atom engine of `state-dev-krak` (src/src/core.ts).

The engine has three atom variants built from closures:

* `createAtom` — a base value cell with `Object.is`-gated writes and a
  microtask-batched notification flush;
* `createAsyncAtom` — a pending/fulfilled/rejected state machine around a
  promise, which throws the promise while pending and the rejection reason
  after rejection;
* `createDerivedAtom` — a computed value with dependency tracking, internal
  subscriptions on the tracked dependencies, and a scheduled recomputation.

Each variant is embedded below as explicit state passing: the closure
variables become structure fields, `queueMicrotask` becomes an explicit
"armed flush" flag (plus, for the async atom, the value captured by the
queued closure), and running the queued microtask is a separate function.
-/

namespace BaseAtom

/-- JavaScript numbers as far as the `Object.is` identity gate cares:
`Object.is` identifies `NaN` with itself and distinguishes distinct
ordinary numbers, so structural equality on this type agrees with
`Object.is` on the corresponding JavaScript values. -/
inductive JSNum where
  | nan
  | num (n : Int)
  deriving DecidableEq

variable {V : Type} [DecidableEq V]

/-- `Object.is(a, b)`: for the value types modelled here (numbers with
`NaN`, or opaque reference handles encoded as integers) `Object.is` is
structural equality. -/
def objectIs (a b : V) : Bool := decide (a = b)

/-- A subscriber callback of a base atom.  `obs id` is a pure observer;
`writer id v` re-enters the atom and calls `_setValue v` when invoked
(modelling a listener that writes to the same atom during its own flush). -/
inductive Cb (V : Type) where
  | obs (id : Nat)
  | writer (id : Nat) (v : V)
  deriving DecidableEq

/-- The closure state of one `createAtom` cell: `curValue`, the
`subscribers` set (a JS `Set`, kept here as an insertion-ordered duplicate
free list), and `isBatching`.  `isBatching = true` exactly while the flush
microtask queued by `scheduleUpdate` has not finished running. -/
structure State (V : Type) where
  curValue : V
  subscribers : List (Cb V)
  isBatching : Bool
  deriving DecidableEq

/-- The state right after `createAtom(initialValue)` (with a given
subscriber list, so scenarios can start with listeners registered). -/
def init (v : V) (subs : List (Cb V)) : State V := ⟨v, subs, false⟩

/-- `_getValue`. -/
def getValue (s : State V) : V := s.curValue

/-- `scheduleUpdate`: if not already batching, set `isBatching` and queue
the flush microtask (queuing is the arming of `isBatching` itself; the
queued body is `flush` below). -/
def scheduleUpdate (s : State V) : State V :=
  if s.isBatching then s else { s with isBatching := true }

/-- `_setValue`: return immediately when `Object.is(curValue, value)`;
otherwise store the value and request a notification. -/
def setValue (v : V) (s : State V) : State V :=
  if objectIs s.curValue v then s
  else scheduleUpdate { s with curValue := v }

/-- `_subscribe`: `subscribers.add(callback)` (JS `Set.add`, deduplicating
on callback identity, keeping insertion order). -/
def subscribeCb (cb : Cb V) (s : State V) : State V :=
  if cb ∈ s.subscribers then s else { s with subscribers := s.subscribers ++ [cb] }

/-- The unsubscribe closure returned by `_subscribe`:
`subscribers.delete(callback)`. -/
def unsubscribeCb (cb : Cb V) (s : State V) : State V :=
  { s with subscribers := s.subscribers.erase cb }

/-- One callback invocation during the flush: the callback receives the
then-current `curValue`; a `writer` additionally runs `_setValue v`.
The returned pair is (state after the invocation, log entry
(callback id, argument passed)). -/
def invokeCb (cb : Cb V) (s : State V) : State V × (Nat × V) :=
  match cb with
  | .obs id => (s, (id, s.curValue))
  | .writer id v => (setValue v s, (id, s.curValue))

/-- `subscribers.forEach((callback) => callback(curValue))`: each callback
is passed the value current at its own invocation. -/
def runCbs (cbs : List (Cb V)) (s : State V) : State V × List (Nat × V) :=
  match cbs with
  | [] => (s, [])
  | cb :: rest =>
      let p := invokeCb cb s
      let q := runCbs rest p.fst
      (q.fst, p.snd :: q.snd)

/-- The body of the microtask queued by `scheduleUpdate`: fan out to the
subscribers, then reset `isBatching` — in this order, as in the source. -/
def flush (s : State V) : State V × List (Nat × V) :=
  let p := runCbs s.subscribers s
  ({ p.fst with isBatching := false }, p.snd)

/-- End of the synchronous turn: the queued microtask runs if one was
queued (`isBatching`), otherwise nothing runs and nobody is invoked. -/
def microtaskStep (s : State V) : State V × List (Nat × V) :=
  if s.isBatching then flush s else (s, [])

/-- A synchronous turn of writes: `set` each listed value in order. -/
def runWrites (ws : List V) (s : State V) : State V :=
  ws.foldl (fun t v => setValue v t) s

end BaseAtom

namespace AsyncAtom

/-- The three-state status of `createAsyncAtom`. -/
inductive Status where
  | pending
  | fulfilled
  | rejected
  deriving DecidableEq

/-- The closure state of one `createAsyncAtom` cell.  `queued` models the
`queueMicrotask` closure queued by `scheduleUpdate(value)` together with
the `value` it captured (`none` when no microtask is queued). -/
structure State (V E : Type) where
  status : Status
  result : Option V
  error : Option E
  subscribers : List Nat
  isBatching : Bool
  queued : Option V
  deriving DecidableEq

/-- The state right after `createAsyncAtom(promise)` returns, before the
promise settles. -/
def init (V E : Type) : State V E :=
  ⟨.pending, none, none, [], false, none⟩

/-- `scheduleUpdate(value)`: if not batching, arm and queue a microtask
that will fan out the captured `value`. -/
def scheduleUpdate {V E : Type} (v : V) (s : State V E) : State V E :=
  if s.isBatching then s else { s with isBatching := true, queued := some v }

/-- The `.then` handler: record fulfillment and request notification. -/
def onFulfilled {V E : Type} (v : V) (s : State V E) : State V E :=
  scheduleUpdate v { s with status := .fulfilled, result := some v }

/-- The `.catch` handler: record the rejection reason; no notification. -/
def onRejected {V E : Type} (e : E) (s : State V E) : State V E :=
  { s with error := some e, status := .rejected }

/-- What a read of the async atom does: throw the stored error, return the
stored result (`result as T` — hence the `Option`), or throw the pending
promise itself. -/
inductive ReadResult (V E : Type) where
  | thrownError (e : Option E)
  | value (v : Option V)
  | thrownPromise
  deriving DecidableEq

/-- `_getValue`: throw `error` when rejected, return `result as T` when
fulfilled, otherwise throw the promise. -/
def getValue {V E : Type} (s : State V E) : ReadResult V E :=
  if s.status = .rejected then .thrownError s.error
  else if s.status = .fulfilled then .value s.result
  else .thrownPromise

/-- `_subscribe`: `subscribers.add(callback)`. -/
def subscribeCb {V E : Type} (cb : Nat) (s : State V E) : State V E :=
  if cb ∈ s.subscribers then s else { s with subscribers := s.subscribers ++ [cb] }

/-- The unsubscribe closure: `subscribers.delete(callback)`. -/
def unsubscribeCb {V E : Type} (cb : Nat) (s : State V E) : State V E :=
  { s with subscribers := s.subscribers.erase cb }

/-- Run the queued microtask, if any: fan out the captured value to the
subscribers registered at flush time, then reset `isBatching`. -/
def runQueued {V E : Type} (s : State V E) : State V E × List (Nat × V) :=
  match s.queued with
  | none => (s, [])
  | some v =>
      ({ s with queued := none, isBatching := false },
       s.subscribers.map (fun cb => (cb, v)))

/-- The message of the error thrown by the async atom's `_setValue`. -/
def setValueErrorMsg : String := "AsyncAtom은 값을 변경할 수 없습니다"

/-- `_setValue`: unconditionally throw. -/
def setValue {V E : Type} (_ : V) (_ : State V E) : Except String (State V E) :=
  Except.error setValueErrorMsg

/-- The state a caller observes after calling `_setValue` and catching the
thrown error: the closure state is whatever it was before the call. -/
def trySet {V E : Type} (v : V) (s : State V E) : State V E :=
  match setValue v s with
  | .ok s1 => s1
  | .error _ => s

end AsyncAtom

namespace DerivedAtom

/-- A derived-atom compute callback, deep-embedded so that the set of
atoms it reads through the tracking accessor in a given run is a function
of the run: literals, reads of base atoms, sums, and a conditional whose
untaken branch is not read (JS number truthiness: `0` is falsy). -/
inductive DExpr (k : Nat) where
  | lit (n : Int)
  | readAtom (i : Fin k)
  | add (a b : DExpr k)
  | cond (c t f : DExpr k)

/-- The value the compute callback returns for the given base-atom values. -/
def evalExpr {k : Nat} : DExpr k → (Fin k → Int) → Int
  | .lit n, _ => n
  | .readAtom i, env => env i
  | .add a b, env => evalExpr a env + evalExpr b env
  | .cond c t f, env =>
      if evalExpr c env = 0 then evalExpr f env else evalExpr t env

/-- The `trackedDependencies` set of one run of the compute callback: the
base atoms read through the tracking accessor during that run (as a
characteristic function). -/
def trackExpr {k : Nat} : DExpr k → (Fin k → Int) → Fin k → Bool
  | .lit _, _, _ => false
  | .readAtom i, _, j => decide (j = i)
  | .add a b, env, j => trackExpr a env j || trackExpr b env j
  | .cond c t f, env, j =>
      trackExpr c env j ||
        (if evalExpr c env = 0 then trackExpr f env j else trackExpr t env j)

/-- A closed system of `k` base atoms and one derived atom over them.
Base atom `i` holds `baseVal i`, its own batching flag, and its external
observers `baseExtSubs i`; `depSubs i` records whether the derived atom's
dependency listener is currently subscribed on atom `i` (the
`dependencySubscribers` map), `dependencies` is the derived atom's
`dependencies` set, and `dCurrent`, `dBatching`, `dSubs` are the derived
closure's `currentValue`, `isBatching` and `subscribers`. -/
structure Sys (k : Nat) where
  baseVal : Fin k → Int
  baseBatching : Fin k → Bool
  baseExtSubs : Fin k → List Nat
  depSubs : Fin k → Bool
  dependencies : Fin k → Bool
  dCurrent : Option Int
  dBatching : Bool
  dSubs : List Nat

/-- The system right after creating the base atoms and the derived atom:
no subscriptions, no cached value, nothing batching. -/
def initSys (k : Nat) (vals : Fin k → Int) : Sys k :=
  ⟨vals, fun _ => false, fun _ => [], fun _ => false, fun _ => false, none, false, []⟩

/-- `size` of a dependency set. -/
def depCount {k : Nat} (deps : Fin k → Bool) : Nat :=
  (Finset.univ.filter (fun i => deps i = true)).card

/-- `isDependenciesEqual`: same size and every member of the first set is
in the second. -/
def isDependenciesEqual {k : Nat} (adeps bdeps : Fin k → Bool) : Bool :=
  decide (depCount adeps = depCount bdeps) &&
    decide (∀ i, adeps i = true → bdeps i = true)

/-- `clearAllDependencies`: unsubscribe every dependency subscription and
clear both the subscription map and the dependency set. -/
def clearAllDependencies {k : Nat} (s : Sys k) : Sys k :=
  { s with depSubs := fun _ => false, dependencies := fun _ => false }

/-- `setupDependenciesSubscribe`: subscribe the derived atom's dependency
listener on each new dependency (called right after a clear). -/
def setupDependenciesSubscribe {k : Nat} (newDeps : Fin k → Bool) (s : Sys k) : Sys k :=
  { s with depSubs := newDeps }

/-- `updateDependenciesIfChanged`: when the tracked set differs from the
current dependency set, clear everything and resubscribe to exactly the
tracked set. -/
def updateDependenciesIfChanged {k : Nat} (newDeps : Fin k → Bool) (s : Sys k) : Sys k :=
  if isDependenciesEqual s.dependencies newDeps then s
  else setupDependenciesSubscribe newDeps
        { clearAllDependencies s with dependencies := newDeps }

/-- The derived atom's `scheduleUpdate`: arm the recomputation microtask
unless already batching. -/
def dScheduleUpdate {k : Nat} (s : Sys k) : Sys k :=
  if s.dBatching then s else { s with dBatching := true }

/-- `calculateDerivedValue`: run the compute callback with the tracking
accessor, store the result in `currentValue`, reconcile the dependency
subscriptions, and return the new value. -/
def calculateDerivedValue {k : Nat} (c : DExpr k) (s : Sys k) : Int × Sys k :=
  let tracked := trackExpr c s.baseVal
  let newValue := evalExpr c s.baseVal
  (newValue, updateDependenciesIfChanged tracked { s with dCurrent := some newValue })

/-- `Object.is(newValue, currentValue)` where `currentValue : T | undefined`:
`Object.is` of a number and `undefined` is false. -/
def jsIsIntOpt (n : Int) (o : Option Int) : Bool :=
  match o with
  | some m => decide (n = m)
  | none => false

/-- The body of the microtask queued by the derived atom's
`scheduleUpdate`: reset `isBatching`, recompute, and notify the derived
subscribers only if `!Object.is(newValue, currentValue)` — where
`currentValue` has just been overwritten by `calculateDerivedValue`.
The notified value is `currentValue as T`. -/
def dFlush {k : Nat} (c : DExpr k) (s : Sys k) : Sys k × List (Nat × Int) :=
  let s1 := { s with dBatching := false }
  let r := calculateDerivedValue c s1
  let valueHasChanged := !(jsIsIntOpt r.fst r.snd.dCurrent)
  if valueHasChanged then
    (r.snd, r.snd.dSubs.map (fun cb => (cb, r.snd.dCurrent.getD r.fst)))
  else (r.snd, [])

/-- End of turn for the derived atom: run its queued microtask, if any. -/
def dMicro {k : Nat} (c : DExpr k) (s : Sys k) : Sys k × List (Nat × Int) :=
  if s.dBatching then dFlush c s else (s, [])

/-- The derived atom's `_getValue`: recompute, then return
`currentValue as T`. -/
def dGetValue {k : Nat} (c : DExpr k) (s : Sys k) : Int × Sys k :=
  let r := calculateDerivedValue c s
  (r.snd.dCurrent.getD r.fst, r.snd)

/-- The derived atom's `_subscribe`: on the 0→1 transition first run an
initial computation, then add the callback to the subscriber set. -/
def dSubscribe {k : Nat} (c : DExpr k) (cb : Nat) (s : Sys k) : Sys k :=
  let s1 := if s.dSubs.isEmpty then (calculateDerivedValue c s).snd else s
  if cb ∈ s1.dSubs then s1 else { s1 with dSubs := s1.dSubs ++ [cb] }

/-- The unsubscribe closure returned by the derived atom's `_subscribe`:
remove the callback; on the 1→0 transition tear down all dependency
subscriptions and discard the cached value. -/
def dUnsubscribe {k : Nat} (cb : Nat) (s : Sys k) : Sys k :=
  let s1 := { s with dSubs := s.dSubs.erase cb }
  if s1.dSubs.isEmpty then { clearAllDependencies s1 with dCurrent := none } else s1

/-- The message of the error thrown by the derived atom's `_setValue`. -/
def dSetValueErrorMsg : String := "DerivedAtom은 값을 변경할 수 없습니다"

/-- The derived atom's `_setValue`: unconditionally throw. -/
def dSetValue {k : Nat} (_ : Int) (_ : Sys k) : Except String (Sys k) :=
  Except.error dSetValueErrorMsg

/-- The state a caller observes after calling the derived atom's
`_setValue` and catching the thrown error. -/
def dTrySet {k : Nat} (v : Int) (s : Sys k) : Sys k :=
  match dSetValue v s with
  | .ok s1 => s1
  | .error _ => s

/-- Base atom `i`'s `scheduleUpdate` inside the system. -/
def aScheduleUpdate {k : Nat} (i : Fin k) (s : Sys k) : Sys k :=
  if s.baseBatching i then s
  else { s with baseBatching := Function.update s.baseBatching i true }

/-- Base atom `i`'s `_setValue` inside the system. -/
def aSetValue {k : Nat} (i : Fin k) (v : Int) (s : Sys k) : Sys k :=
  if decide (s.baseVal i = v) then s
  else aScheduleUpdate i { s with baseVal := Function.update s.baseVal i v }

/-- The dependency listener closure installed by
`setupDependenciesSubscribe`: schedule a derived recomputation only if the
derived atom currently has external subscribers. -/
def dDepListener {k : Nat} (s : Sys k) : Sys k :=
  if s.dSubs.isEmpty then s else dScheduleUpdate s

/-- The body of base atom `i`'s flush microtask: invoke the external
observers with the current value, invoke the derived dependency listener
when subscribed, then reset the batching flag. -/
def aFlush {k : Nat} (i : Fin k) (s : Sys k) : Sys k × List (Nat × Int) :=
  let log := (s.baseExtSubs i).map (fun cb => (cb, s.baseVal i))
  let s1 := if s.depSubs i then dDepListener s else s
  ({ s1 with baseBatching := Function.update s1.baseBatching i false }, log)

/-- End of turn for base atom `i`: run its queued microtask, if any. -/
def aMicro {k : Nat} (i : Fin k) (s : Sys k) : Sys k × List (Nat × Int) :=
  if s.baseBatching i then aFlush i s else (s, [])

/-- The compute callback `read => read(a) + 1` of the claims' scenario. -/
def exprAPlus1 : DExpr 1 := .add (.readAtom 0) (.lit 1)

/-- Scenario start: `a = createAtom(0)`, `d = createDerivedAtom(read => read(a) + 1)`. -/
def scenarioStart : Sys 1 := initSys 1 (fun _ => 0)

/-- Scenario after `subscribe(d, cb)` (cb id 0) and `set(a, 5)`. -/
def scenarioAfterSet : Sys 1 := aSetValue 0 5 (dSubscribe exprAPlus1 0 scenarioStart)

/-- Scenario after the base atom's flush microtask ran. -/
def scenarioAfterBaseFlush : Sys 1 × List (Nat × Int) := aMicro 0 scenarioAfterSet

/-- Scenario after the derived atom's flush microtask ran. -/
def scenarioAfterDerivedFlush : Sys 1 × List (Nat × Int) :=
  dMicro exprAPlus1 scenarioAfterBaseFlush.fst

end DerivedAtom

/-! ## Base atom lemmas and claims -/

namespace BaseAtom

variable {V : Type} [DecidableEq V]

theorem objectIs_true_iff (a b : V) : objectIs a b = true ↔ a = b := by
  simp [objectIs]

theorem setValue_self (v : V) (s : State V) (h : s.curValue = v) :
    setValue v s = s := by
  unfold setValue
  simp [objectIs, h]

theorem setValue_curValue (v : V) (s : State V) : (setValue v s).curValue = v := by
  unfold setValue scheduleUpdate
  split
  · rename_i h
    exact (objectIs_true_iff _ _).mp h
  · split <;> rfl

theorem setValue_subscribers (v : V) (s : State V) :
    (setValue v s).subscribers = s.subscribers := by
  unfold setValue scheduleUpdate
  split
  · rfl
  · split <;> rfl

theorem scheduleUpdate_isBatching (s : State V) :
    (scheduleUpdate s).isBatching = true := by
  by_cases hb : s.isBatching = true <;> simp [scheduleUpdate, hb]

theorem setValue_isBatching_mono (v : V) (s : State V) (h : s.isBatching = true) :
    (setValue v s).isBatching = true := by
  unfold setValue
  split
  · exact h
  · exact scheduleUpdate_isBatching _

theorem setValue_arms (v : V) (s : State V) (h : s.curValue ≠ v) :
    (setValue v s).isBatching = true := by
  unfold setValue
  split
  · rename_i hv
    exact absurd ((objectIs_true_iff _ _).mp hv) h
  · exact scheduleUpdate_isBatching _

theorem runWrites_cons (w : V) (ws : List V) (s : State V) :
    runWrites (w :: ws) s = runWrites ws (setValue w s) := rfl

theorem runWrites_curValue (ws : List V) (s : State V) (h : ws ≠ []) :
    (runWrites ws s).curValue = ws.getLast h := by
  induction ws generalizing s with
  | nil => exact absurd rfl h
  | cons w ws ih =>
      cases ws with
      | nil =>
          show (setValue w s).curValue = _
          rw [setValue_curValue]
          rfl
      | cons w2 rest =>
          rw [runWrites_cons, ih (setValue w s) (by simp)]
          exact (List.getLast_cons (by simp)).symm

theorem runWrites_subscribers (ws : List V) (s : State V) :
    (runWrites ws s).subscribers = s.subscribers := by
  induction ws generalizing s with
  | nil => rfl
  | cons w ws ih => rw [runWrites_cons, ih, setValue_subscribers]

theorem runWrites_isBatching_mono (ws : List V) (s : State V)
    (h : s.isBatching = true) : (runWrites ws s).isBatching = true := by
  induction ws generalizing s with
  | nil => exact h
  | cons w ws ih => exact ih _ (setValue_isBatching_mono _ _ h)

theorem runWrites_armed (w : V) (ws : List V) (s : State V) (h : s.curValue ≠ w) :
    (runWrites (w :: ws) s).isBatching = true := by
  rw [runWrites_cons]
  exact runWrites_isBatching_mono _ _ (setValue_arms _ _ h)

theorem flush_single_obs (s : State V) (id : Nat)
    (h : s.subscribers = [Cb.obs id]) :
    flush s = ({ s with isBatching := false }, [(id, s.curValue)]) := by
  simp [flush, runCbs, invokeCb, h]

/-- C1 (counterexample): on `a = createAtom(0)` with a subscriber
registered, the one-write sequence `set(a, 0)` — a finite sequence of
writes with (vacuously) pairwise non-identical values — produces zero
subscriber invocations after the turn ends, not exactly one: the write is
identical to the stored value, so no flush is ever armed. -/
theorem c1_single_stale_write_counterexample :
    ([(0 : Int)]).Nodup
  ∧ (microtaskStep (runWrites [(0 : Int)] (init 0 [Cb.obs 0]))).snd = [] := by
  decide

/-- C1 (amended): for a base atom with a subscriber registered, a finite
sequence of writes with pairwise non-identical values inside one
synchronous turn — provided at least one write differs from the value it
meets (so the flush is armed at all: the sequence is nonempty and, if it
has a single element, that element differs from the initial value) —
results, after the deferred flush, in the subscriber being invoked exactly
once, with the value of the last write and never an intermediate one, and
a read then returns that last value. -/
theorem c1_writes_coalesce_to_last (c0 : V) (cbId : Nat) (ws : List V)
    (hne : ws ≠ []) (hnd : ws.Nodup)
    (hfirst : ws.head hne ≠ c0 ∨ 2 ≤ ws.length) :
    (microtaskStep (runWrites ws (init c0 [Cb.obs cbId]))).snd
        = [(cbId, ws.getLast hne)]
  ∧ getValue (microtaskStep (runWrites ws (init c0 [Cb.obs cbId]))).fst
        = ws.getLast hne := by
  have hsubs : (runWrites ws (init c0 [Cb.obs cbId])).subscribers = [Cb.obs cbId] :=
    runWrites_subscribers ws _
  have hcur : (runWrites ws (init c0 [Cb.obs cbId])).curValue = ws.getLast hne :=
    runWrites_curValue ws _ hne
  have harm : (runWrites ws (init c0 [Cb.obs cbId])).isBatching = true := by
    cases ws with
    | nil => exact absurd rfl hne
    | cons w rest =>
        by_cases hw : w = c0
        · rcases hfirst with hh | hl
          · exact absurd hw hh
          · cases rest with
            | nil => simp at hl
            | cons w2 rest2 =>
                have hne2 : w ≠ w2 := by
                  intro hEq
                  exact (List.nodup_cons.mp hnd).1 (hEq ▸ List.mem_cons_self _ _)
                rw [runWrites_cons, setValue_self w _ hw.symm]
                exact runWrites_armed w2 rest2 _ (by
                  show c0 ≠ w2
                  rw [← hw]
                  exact hne2)
        · exact runWrites_armed w rest _ (by
            show c0 ≠ w
            exact fun hEq => hw hEq.symm)
  have hstep : microtaskStep (runWrites ws (init c0 [Cb.obs cbId]))
      = flush (runWrites ws (init c0 [Cb.obs cbId])) := by
    unfold microtaskStep
    simp [harm]
  rw [hstep, flush_single_obs _ _ hsubs]
  exact ⟨by rw [hcur], by simpa [getValue] using hcur⟩

theorem c1_writes_coalesce_to_last_witness :
    (microtaskStep (runWrites [1, 2, 3] (init (0 : Int) [Cb.obs 0]))).snd
        = [(0, ([1, 2, 3] : List Int).getLast (by decide))]
  ∧ getValue (microtaskStep (runWrites [1, 2, 3] (init (0 : Int) [Cb.obs 0]))).fst
        = ([1, 2, 3] : List Int).getLast (by decide) :=
  c1_writes_coalesce_to_last 0 0 [1, 2, 3] (by decide) (by decide)
    (Or.inr (by decide))

/-- C2: writing a value identical (under `Object.is`) to the stored value
is a complete no-op — the closure state (stored value, subscriber set,
batching flag) is unchanged, and when nothing was armed before the call,
the end of the turn invokes no subscriber at all. -/
theorem c2_identical_write_noop (s : State V) (v : V)
    (h : objectIs s.curValue v = true) (hb : s.isBatching = false) :
    setValue v s = s ∧ microtaskStep (setValue v s) = (s, []) := by
  have h1 : setValue v s = s := setValue_self v s ((objectIs_true_iff _ _).mp h)
  refine ⟨h1, ?_⟩
  rw [h1]
  unfold microtaskStep
  simp [hb]

theorem c2_identical_write_noop_witness :
    (setValue JSNum.nan (init JSNum.nan [Cb.obs 0]) = init JSNum.nan [Cb.obs 0]
      ∧ microtaskStep (setValue JSNum.nan (init JSNum.nan [Cb.obs 0]))
          = (init JSNum.nan [Cb.obs 0], []))
  ∧ (setValue (42 : Int) (init 42 [Cb.obs 1]) = init 42 [Cb.obs 1]
      ∧ microtaskStep (setValue (42 : Int) (init 42 [Cb.obs 1]))
          = (init 42 [Cb.obs 1], [])) :=
  ⟨c2_identical_write_noop _ _ (by decide) rfl,
   c2_identical_write_noop _ _ (by decide) rfl⟩

/-- C5 (code bug, evaluated at the failing input): `a = createAtom(0)`
with one subscriber that re-entrantly runs `set(a, 2)` when invoked;
after `set(a, 1)` the flush invokes the subscriber with `1` and the
re-entrant write stores `2` — but `scheduleUpdate` sees `isBatching`
still `true` and arms nothing, and the flush then resets `isBatching`,
so no new coalescing window exists and the next turn runs no flush: the
subscriber is never invoked with `2`, although the value changed to `2`
with a subscriber registered. -/
theorem c5_reentrant_write_lost :
    (microtaskStep (setValue 1 (init (0 : Int) [Cb.writer 0 2]))).snd = [(0, 1)]
  ∧ (microtaskStep (setValue 1 (init (0 : Int) [Cb.writer 0 2]))).fst
      = init (2 : Int) [Cb.writer 0 2]
  ∧ microtaskStep (microtaskStep (setValue 1 (init (0 : Int) [Cb.writer 0 2]))).fst
      = (init (2 : Int) [Cb.writer 0 2], []) := by
  decide

/-- C7 (counterexample): registering the identical callback twice is
deduplicated to one registration — but calling one of the returned
unsubscribe closures once then removes the callback entirely: it is no
longer subscribed and is not invoked on the next flush, contrary to the
claim. -/
theorem c7_unsubscribe_once_removes_counterexample :
    (subscribeCb (Cb.obs 7) (subscribeCb (Cb.obs 7) (init (0 : Int) []))).subscribers
        = [Cb.obs 7]
  ∧ (unsubscribeCb (Cb.obs 7)
        (subscribeCb (Cb.obs 7) (subscribeCb (Cb.obs 7) (init (0 : Int) [])))).subscribers
        = []
  ∧ (microtaskStep (setValue 1 (unsubscribeCb (Cb.obs 7)
        (subscribeCb (Cb.obs 7) (subscribeCb (Cb.obs 7) (init (0 : Int) [])))))).snd
        = [] := by
  decide

/-- C7 (amended): subscribing the identical callback reference twice is
deduplicated to one registration (the second `subscribe` leaves the state
unchanged), and calling one of the returned unsubscribe closures once
removes that callback from the subscriber set entirely — `Set.delete`
semantics — so it is not invoked on subsequent flushes. -/
theorem c7_duplicate_subscribe_dedup (s : State V) (cb : Cb V)
    (h : cb ∉ s.subscribers) :
    subscribeCb cb (subscribeCb cb s) = subscribeCb cb s
  ∧ (unsubscribeCb cb (subscribeCb cb (subscribeCb cb s))).subscribers
      = s.subscribers := by
  have h1 : subscribeCb cb s = { s with subscribers := s.subscribers ++ [cb] } := by
    unfold subscribeCb
    simp [h]
  have h2 : subscribeCb cb (subscribeCb cb s) = subscribeCb cb s := by
    rw [h1]
    unfold subscribeCb
    simp
  refine ⟨h2, ?_⟩
  rw [h2, h1]
  show (s.subscribers ++ [cb]).erase cb = s.subscribers
  rw [List.erase_append_right _ h, List.erase_cons_head, List.append_nil]

theorem c7_duplicate_subscribe_dedup_witness :
    subscribeCb (Cb.obs 7) (subscribeCb (Cb.obs 7) (init (1 : Int) []))
        = subscribeCb (Cb.obs 7) (init (1 : Int) [])
  ∧ (unsubscribeCb (Cb.obs 7) (subscribeCb (Cb.obs 7)
        (subscribeCb (Cb.obs 7) (init (1 : Int) [])))).subscribers
      = (init (1 : Int) []).subscribers :=
  c7_duplicate_subscribe_dedup _ _ (by decide)

/-- C10: a write of a value not identical (under `Object.is`) to the
current value is immediately visible: a read performed synchronously after
the write, before any flush has run, already returns the new value
(`_setValue` assigns `curValue` before requesting the deferred
notification, and itself invokes no callback). -/
theorem c10_write_immediately_visible (s : State V) (v : V)
    (h : objectIs s.curValue v = false) :
    getValue (setValue v s) = v := by
  unfold getValue
  exact setValue_curValue v s

theorem c10_write_immediately_visible_witness :
    getValue (setValue (1 : Int) (init 0 [Cb.obs 0])) = 1 :=
  c10_write_immediately_visible _ _ (by decide)

end BaseAtom

/-! ## Async atom lemmas and claims -/

namespace AsyncAtom

theorem scheduleUpdate_status {V E : Type} (v : V) (s : State V E) :
    (scheduleUpdate v s).status = s.status := by
  unfold scheduleUpdate
  split <;> rfl

theorem scheduleUpdate_result {V E : Type} (v : V) (s : State V E) :
    (scheduleUpdate v s).result = s.result := by
  unfold scheduleUpdate
  split <;> rfl

theorem runQueued_status {V E : Type} (s : State V E) :
    (runQueued s).fst.status = s.status := by
  unfold runQueued
  split <;> rfl

theorem runQueued_result {V E : Type} (s : State V E) :
    (runQueued s).fst.result = s.result := by
  unfold runQueued
  split <;> rfl

theorem runQueued_error {V E : Type} (s : State V E) :
    (runQueued s).fst.error = s.error := by
  unfold runQueued
  split <;> rfl

theorem getValue_of_status_result {V E : Type} (s t : State V E)
    (hs : s.status = t.status) (hr : s.result = t.result)
    (he : s.error = t.error) : getValue s = getValue t := by
  unfold getValue
  rw [hs, hr, he]

/-- C4: the async atom's read/settlement contract.  While pending, a read
throws the pending promise itself.  After the `.then` handler runs, every
read — also after the notification microtask has run — returns the
resolved value, and the status is `fulfilled`.  After the `.catch` handler
runs, every read throws the stored rejection reason (the settlement
handlers run once; reads only inspect the stored fields, never re-running
the computation), and the status is `rejected`.  Once settled the status
is terminal: no read, subscription, unsubscription or flush changes it. -/
theorem c4_async_state_machine {V E : Type} (s : State V E)
    (hp : s.status = .pending) :
    getValue s = .thrownPromise
  ∧ (∀ v : V,
        getValue (onFulfilled v s) = .value (some v)
      ∧ getValue (runQueued (onFulfilled v s)).fst = .value (some v)
      ∧ (onFulfilled v s).status = .fulfilled)
  ∧ (∀ e : E,
        getValue (onRejected e s) = .thrownError (some e)
      ∧ getValue (runQueued (onRejected e s)).fst = .thrownError (some e)
      ∧ (onRejected e s).status = .rejected)
  ∧ (∀ (t : State V E) (cb : Nat),
        (runQueued t).fst.status = t.status
      ∧ (subscribeCb cb t).status = t.status
      ∧ (unsubscribeCb cb t).status = t.status) := by
  refine ⟨?_, ?_, ?_, ?_⟩
  · unfold getValue
    rw [hp]
    rfl
  · intro v
    have hst : (onFulfilled v s).status = .fulfilled := by
      unfold onFulfilled
      rw [scheduleUpdate_status]
    have hres : (onFulfilled v s).result = some v := by
      unfold onFulfilled
      rw [scheduleUpdate_result]
    have hread : getValue (onFulfilled v s) = .value (some v) := by
      unfold getValue
      rw [hst, hres]
      rfl
    refine ⟨hread, ?_, hst⟩
    rw [getValue_of_status_result (runQueued (onFulfilled v s)).fst (onFulfilled v s)
      (runQueued_status _) (runQueued_result _) (runQueued_error _)]
    exact hread
  · intro e
    have hread : getValue (onRejected e s) = .thrownError (some e) := by
      unfold getValue onRejected
      rfl
    refine ⟨hread, ?_, rfl⟩
    rw [getValue_of_status_result (runQueued (onRejected e s)).fst (onRejected e s)
      (runQueued_status _) (runQueued_result _) (runQueued_error _)]
    exact hread
  · intro t cb
    refine ⟨runQueued_status _, ?_, rfl⟩
    unfold subscribeCb
    split <;> rfl

theorem c4_async_state_machine_witness :
    getValue (init Int Nat) = .thrownPromise
  ∧ getValue (onFulfilled 7 (init Int Nat)) = .value (some 7)
  ∧ getValue (onRejected 9 (init Int Nat)) = .thrownError (some 9) :=
  ⟨(c4_async_state_machine (init Int Nat) rfl).1,
   ((c4_async_state_machine (init Int Nat) rfl).2.1 7).1,
   ((c4_async_state_machine (init Int Nat) rfl).2.2.1 9).1⟩

theorem filter_fst_map_not_mem {V : Type} (v : V) (cb : Nat) (l : List Nat)
    (h : cb ∉ l) :
    (l.map (fun c => (c, v))).filter (fun p => decide (p.fst = cb)) = [] := by
  induction l with
  | nil => rfl
  | cons a l ih =>
      have ha : a ≠ cb := fun hEq => h (hEq ▸ List.mem_cons_self _ _)
      have hl : cb ∉ l := fun hm => h (List.mem_cons_of_mem _ hm)
      simp only [List.map_cons, List.filter_cons]
      simp [ha, ih hl]

theorem filter_fst_map_nodup {V : Type} (v : V) (cb : Nat) (l : List Nat)
    (hnd : l.Nodup) (hmem : cb ∈ l) :
    (l.map (fun c => (c, v))).filter (fun p => decide (p.fst = cb)) = [(cb, v)] := by
  induction l with
  | nil => cases hmem
  | cons a l ih =>
      by_cases h : a = cb
      · subst h
        have hnotmem : a ∉ l := (List.nodup_cons.mp hnd).1
        simp only [List.map_cons, List.filter_cons]
        simp [filter_fst_map_not_mem v a l hnotmem]
      · have hmem2 : cb ∈ l := by
          rcases List.mem_cons.mp hmem with h1 | h1
          · exact absurd h1.symm h
          · exact h1
        simp only [List.map_cons, List.filter_cons]
        simp [h, ih (List.nodup_cons.mp hnd).2 hmem2]

/-- C9: for an async atom with a subscriber registered before settlement
(pending, nothing armed), the pending→fulfilled transition queues exactly
one batched notification and the flush invokes every registered listener
with the resolved value — the given listener's invocations in the fan-out
log are exactly one, with that value; a pending→rejected transition queues
nothing, so no subscriber callback is ever invoked. -/
theorem c9_fulfill_notifies_reject_does_not {V E : Type}
    (s : State V E) (cb : Nat) (v : V)
    (hp : s.status = .pending) (hb : s.isBatching = false) (hq : s.queued = none)
    (hnd : s.subscribers.Nodup) (hmem : cb ∈ s.subscribers) :
    (runQueued (onFulfilled v s)).snd = s.subscribers.map (fun c => (c, v))
  ∧ ((runQueued (onFulfilled v s)).snd).filter (fun p => decide (p.fst = cb))
      = [(cb, v)]
  ∧ (∀ e : E, runQueued (onRejected e s) = (onRejected e s, [])) := by
  have harm : onFulfilled v s
      = { s with status := .fulfilled, result := some v,
                 isBatching := true, queued := some v } := by
    unfold onFulfilled scheduleUpdate
    simp [hb]
  have hlog : (runQueued (onFulfilled v s)).snd
      = s.subscribers.map (fun c => (c, v)) := by
    rw [harm]
    rfl
  refine ⟨hlog, ?_, ?_⟩
  · rw [hlog]
    exact filter_fst_map_nodup v cb s.subscribers hnd hmem
  · intro e
    unfold runQueued onRejected
    simp [hq]

theorem c9_fulfill_notifies_reject_does_not_witness :
    (runQueued (onFulfilled (7 : Int) (subscribeCb 3 (init Int Nat)))).snd
        = (subscribeCb 3 (init Int Nat)).subscribers.map (fun c => (c, (7 : Int)))
  ∧ ((runQueued (onFulfilled (7 : Int) (subscribeCb 3 (init Int Nat)))).snd).filter
        (fun p => decide (p.fst = 3)) = [(3, (7 : Int))]
  ∧ (∀ e : Nat, runQueued (onRejected e (subscribeCb 3 (init Int Nat)))
        = (onRejected e (subscribeCb 3 (init Int Nat)), [])) :=
  c9_fulfill_notifies_reject_does_not (subscribeCb 3 (init Int Nat)) 3 7
    rfl rfl rfl (by decide) (by decide)

end AsyncAtom

/-! ## Derived atom lemmas and claims -/

namespace DerivedAtom

theorem isDependenciesEqual_eq {k : Nat} (adeps bdeps : Fin k → Bool)
    (h : isDependenciesEqual adeps bdeps = true) : adeps = bdeps := by
  unfold isDependenciesEqual at h
  rw [Bool.and_eq_true, decide_eq_true_eq, decide_eq_true_eq] at h
  obtain ⟨hcard, hsub⟩ := h
  have hsubset : Finset.univ.filter (fun i => adeps i = true)
      ⊆ Finset.univ.filter (fun i => bdeps i = true) := by
    intro i hi
    rw [Finset.mem_filter] at hi ⊢
    exact ⟨hi.1, hsub i hi.2⟩
  have hset := Finset.eq_of_subset_of_card_le hsubset (le_of_eq hcard.symm)
  funext i
  have hiff : (i ∈ Finset.univ.filter (fun j => adeps j = true))
      ↔ (i ∈ Finset.univ.filter (fun j => bdeps j = true)) := by
    rw [hset]
  rw [Finset.mem_filter, Finset.mem_filter] at hiff
  simp only [Finset.mem_univ, true_and] at hiff
  cases ha : adeps i <;> cases hb : bdeps i
  · rfl
  · exact absurd (hiff.mpr hb) (by rw [ha]; exact Bool.false_ne_true)
  · exact absurd (hiff.mp ha) (by rw [hb]; exact Bool.false_ne_true)
  · rfl

theorem updateDeps_dCurrent {k : Nat} (nd : Fin k → Bool) (s : Sys k) :
    (updateDependenciesIfChanged nd s).dCurrent = s.dCurrent := by
  unfold updateDependenciesIfChanged setupDependenciesSubscribe clearAllDependencies
  split <;> rfl

theorem updateDeps_dSubs {k : Nat} (nd : Fin k → Bool) (s : Sys k) :
    (updateDependenciesIfChanged nd s).dSubs = s.dSubs := by
  unfold updateDependenciesIfChanged setupDependenciesSubscribe clearAllDependencies
  split <;> rfl

theorem updateDeps_fields {k : Nat} (nd : Fin k → Bool) (s : Sys k)
    (hsync : s.depSubs = s.dependencies) :
    (updateDependenciesIfChanged nd s).dependencies = nd
  ∧ (updateDependenciesIfChanged nd s).depSubs = nd := by
  unfold updateDependenciesIfChanged setupDependenciesSubscribe clearAllDependencies
  split
  · rename_i h
    have heq := isDependenciesEqual_eq _ _ h
    exact ⟨heq, hsync.trans heq⟩
  · exact ⟨rfl, rfl⟩

theorem calculateDerivedValue_dCurrent {k : Nat} (c : DExpr k) (s : Sys k) :
    ((calculateDerivedValue c s).snd).dCurrent = some (calculateDerivedValue c s).fst := by
  unfold calculateDerivedValue
  rw [updateDeps_dCurrent]

theorem calculateDerivedValue_fields {k : Nat} (c : DExpr k) (s : Sys k)
    (hsync : s.depSubs = s.dependencies) :
    ((calculateDerivedValue c s).snd).dependencies = trackExpr c s.baseVal
  ∧ ((calculateDerivedValue c s).snd).depSubs = trackExpr c s.baseVal := by
  unfold calculateDerivedValue
  exact updateDeps_fields _ _ hsync

theorem dFlush_snd {k : Nat} (c : DExpr k) (s : Sys k) : (dFlush c s).snd = [] := by
  unfold dFlush
  dsimp only
  rw [calculateDerivedValue_dCurrent c { s with dBatching := false }]
  simp [jsIsIntOpt]

/-- C3 (code bug, general fact and evaluation at the failing input): the
derived atom's flush microtask NEVER notifies the derived subscribers —
`calculateDerivedValue` overwrites `currentValue` with the new value
before the flush compares `Object.is(newValue, currentValue)`, so
`valueHasChanged` is always false.  In the claim's scenario
(`a = createAtom(0)`, `d = createDerivedAtom(read => read(a) + 1)`,
`subscribe(d, cb)`, `set(a, 5)`, both microtasks run) the read of `d`
does return `6`, but `cb` is invoked zero times — not once — and nothing
remains scheduled afterwards. -/
theorem c3_derived_flush_never_notifies :
    (∀ (k : Nat) (c : DExpr k) (s : Sys k), (dFlush c s).snd = [])
  ∧ (dSubscribe exprAPlus1 0 scenarioStart).dSubs = [0]
  ∧ scenarioAfterBaseFlush.snd = []
  ∧ scenarioAfterDerivedFlush.snd = []
  ∧ (dGetValue exprAPlus1 scenarioAfterDerivedFlush.fst).fst = 6
  ∧ scenarioAfterDerivedFlush.fst.dBatching = false := by
  refine ⟨fun k c s => dFlush_snd c s, ?_, ?_, ?_, ?_, ?_⟩ <;> decide

/-- C6 (counterexample): a single `get` of the derived atom in the
scenario system — with zero external subscribers — installs the
dependency subscription on the base atom: the claimed invariant that
internal dependency subscriptions exist only while the derived atom has
at least one external subscriber is false. -/
theorem c6_unobserved_read_subscribes_counterexample :
    ((dGetValue exprAPlus1 scenarioStart).snd).dSubs = []
  ∧ ((dGetValue exprAPlus1 scenarioStart).snd).depSubs 0 = true
  ∧ ((dGetValue exprAPlus1 scenarioStart).snd).dependencies 0 = true := by
  decide

/-- C6 (amended): for a derived atom whose subscription map and dependency
set agree (as they do in every reachable state), after any recomputation —
triggered by a read (even with zero external subscribers), by the 0→1
subscriber transition, or directly — the dependency set and the installed
dependency subscriptions are exactly the set of atoms read during that
recomputation; and the 1→0 unsubscribe transition tears down all
dependency subscriptions, clears the dependency set and discards the
cached value. -/
theorem c6_dependency_lifecycle {k : Nat} (c : DExpr k) (cb : Nat) (s t : Sys k)
    (hone : s.dSubs = [cb]) (hsync : t.depSubs = t.dependencies) :
    (dUnsubscribe cb s).depSubs = (fun _ => false)
  ∧ (dUnsubscribe cb s).dependencies = (fun _ => false)
  ∧ (dUnsubscribe cb s).dCurrent = none
  ∧ ((calculateDerivedValue c t).snd).dependencies = trackExpr c t.baseVal
  ∧ ((calculateDerivedValue c t).snd).depSubs = trackExpr c t.baseVal
  ∧ ((dGetValue c t).snd).depSubs = trackExpr c t.baseVal
  ∧ (t.dSubs = [] → (dSubscribe c cb t).depSubs = trackExpr c t.baseVal) := by
  have hdown : dUnsubscribe cb s
      = { clearAllDependencies { s with dSubs := ([] : List Nat) }
            with dCurrent := none } := by
    unfold dUnsubscribe
    rw [hone, List.erase_cons_head]
    rfl
  have hcalc := calculateDerivedValue_fields c t hsync
  refine ⟨?_, ?_, ?_, hcalc.1, hcalc.2, hcalc.2, ?_⟩
  · rw [hdown]
    rfl
  · rw [hdown]
    rfl
  · rw [hdown]
  · intro hz
    unfold dSubscribe
    rw [hz]
    simp only [List.isEmpty_nil, if_true]
    split <;> exact hcalc.2

theorem c6_dependency_lifecycle_witness :
    (dUnsubscribe 5 (dSubscribe exprAPlus1 5 scenarioStart)).depSubs
        = (fun _ => false)
  ∧ (dUnsubscribe 5 (dSubscribe exprAPlus1 5 scenarioStart)).dCurrent = none
  ∧ ((dGetValue exprAPlus1 scenarioStart).snd).depSubs
        = trackExpr exprAPlus1 scenarioStart.baseVal := by
  have h := c6_dependency_lifecycle exprAPlus1 5
    (dSubscribe exprAPlus1 5 scenarioStart) scenarioStart (by decide) rfl
  exact ⟨h.1, h.2.2.1, h.2.2.2.2.2.1⟩

end DerivedAtom

/-- C8: calling `write` on a derived atom or on an async atom throws an
unsupported-mutation error synchronously and unconditionally; the error is
fatal to that call only — the caller that catches it observes the atom's
state unchanged, so a subsequent read returns what a read before the
failed write returned and no notification became scheduled. -/
theorem c8_write_on_derived_or_async_throws :
    (∀ (k : Nat) (c : DerivedAtom.DExpr k) (v : Int) (s : DerivedAtom.Sys k),
        DerivedAtom.dSetValue v s = Except.error DerivedAtom.dSetValueErrorMsg
      ∧ DerivedAtom.dTrySet v s = s
      ∧ DerivedAtom.dGetValue c (DerivedAtom.dTrySet v s) = DerivedAtom.dGetValue c s
      ∧ (DerivedAtom.dTrySet v s).dBatching = s.dBatching)
  ∧ (∀ (V E : Type) (v : V) (s : AsyncAtom.State V E),
        AsyncAtom.setValue v s = Except.error AsyncAtom.setValueErrorMsg
      ∧ AsyncAtom.trySet v s = s
      ∧ AsyncAtom.getValue (AsyncAtom.trySet v s) = AsyncAtom.getValue s
      ∧ (AsyncAtom.trySet v s).isBatching = s.isBatching
      ∧ (AsyncAtom.trySet v s).queued = s.queued) :=
  ⟨fun _ _ _ _ => ⟨rfl, rfl, rfl, rfl⟩, fun _ _ _ _ => ⟨rfl, rfl, rfl, rfl, rfl⟩⟩
